import Mathlib

/-!
Shallow embedding of the Pracxcel attribution and idempotent action engine.

The definitions below are translated from the repository sources:
  - src/core/models.py        (Clinic, Patient, Appointment, Invoice, Attribution, AuditLog)
  - src/integrations/models.py (CallEvent, MarketingTouch)
  - src/operations/models.py   (Task, ReviewRequest, TreatmentPlan)
  - src/core/services.py       (create_attribution, override_attribution)
  - src/operations/tasks.py    (the four periodic task generators)

Conventions of the embedding:
  - Django datetimes are Int epoch seconds; DateFields are Int epoch days
    (a datetime's .date() is floor division by 86400, UTC).
  - Django CharField/EmailField values are String; blank means the empty string.
    Python string truthiness (x or y, if x:) is modelled by pyOr / emptiness tests.
  - Nullable columns are Option; non-null columns are plain values.
  - A queryset filter over a table is a List.filter; an explicit order_by on a
    timestamp is a mergeSort.  The implicit Meta default orderings of the
    scanned tables are not modelled: none of the verified properties depends
    on the scan order of a generator loop.
  - The database is explicit state: attribution evaluation threads the list of
    Attribution rows, the generator tasks thread an OpsState record.
-/

namespace Pracxcel

/-- Python `x or y` on strings: `y` when `x` is empty (falsy), else `x`. -/
def pyOr (x y : String) : String := if x = "" then y else x

/-- Zero-padded two-digit rendering used by strftime-style formatting. -/
def pad2 (n : Int) : String := if n < 10 then "0" ++ toString n else toString n

/-- Gregorian civil date (year, month, day) from days since 1970-01-01
(Howard Hinnant's days-from-civil inverse), used to model strftime. -/
def civilFromDays (z0 : Int) : Int × Int × Int :=
  let z := z0 + 719468
  let era := Int.fdiv z 146097
  let doe := z - era * 146097
  let yoe := (doe - doe / 1460 + doe / 36524 - doe / 146096) / 365
  let y := yoe + era * 400
  let doy := doe - (365 * yoe + yoe / 4 - yoe / 100)
  let mp := (5 * doy + 2) / 153
  let d := doy - (153 * mp + 2) / 5 + 1
  let m := mp + (if mp < 10 then 3 else -9)
  (y + (if m ≤ 2 then 1 else 0), m, d)

/-- strftime("%Y-%m") of an epoch-seconds timestamp. -/
def monthKey (t : Int) : String :=
  let c := civilFromDays (Int.fdiv t 86400)
  toString c.1 ++ "-" ++ pad2 c.2.1

/-- strftime("%H:%M") of an epoch-seconds timestamp. -/
def timeHM (t : Int) : String :=
  pad2 (Int.fmod (Int.fdiv t 3600) 24) ++ ":" ++ pad2 (Int.fmod (Int.fdiv t 60) 60)

/-- strftime("%Y-%m-%d") of an epoch-seconds timestamp. -/
def dateYMD (t : Int) : String :=
  let c := civilFromDays (Int.fdiv t 86400)
  toString c.1 ++ "-" ++ pad2 c.2.1 ++ "-" ++ pad2 c.2.2

/-- A datetime's `.date()`: epoch days. -/
def epochDay (t : Int) : Int := Int.fdiv t 86400

/-- src/core/models.py Clinic (the fields the engine reads). -/
structure Clinic where
  id : Nat
  name : String
  is_active : Bool
deriving DecidableEq, Repr

/-- src/core/models.py Patient (the fields the engine reads). -/
structure Patient where
  id : Nat
  clinicId : Nat
  first_name : String
  last_name : String
  email : String
  phone : String
  sms_consent : Bool
  email_consent : Bool
  last_appointment_date : Option Int
deriving DecidableEq, Repr

/-- src/core/models.py Appointment (the fields the engine reads). -/
structure Appointment where
  id : Nat
  clinicId : Nat
  patientId : Nat
  cliniko_id : String
  scheduled_at : Int
  status : String
deriving DecidableEq, Repr

/-- src/core/models.py Invoice (the fields the engine reads).
create_attribution dereferences paid_at unconditionally, so it is modelled
as a non-null timestamp here. -/
structure Invoice where
  id : Nat
  clinicId : Nat
  patientId : Nat
  total_amount : Int
  paid_at : Int
deriving DecidableEq, Repr

/-- src/integrations/models.py CallEvent (the fields the engine reads/writes). -/
structure CallEvent where
  id : Nat
  clinicId : Nat
  call_sid : String
  caller_phone : String
  duration_seconds : Nat
  timestamp : Int
  campaign_id : String
  campaign_name : String
  resulted_in_appointment : Bool
  is_processed : Bool
deriving DecidableEq, Repr

/-- src/integrations/models.py MarketingTouch (the fields the engine reads). -/
structure MarketingTouch where
  id : Nat
  clinicId : Nat
  email : String
  utm_source : String
  utm_medium : String
  utm_campaign : String
  timestamp : Int
deriving DecidableEq, Repr

/-- Polymorphic source reference (ContentType + object_id) of an Attribution:
either a CallEvent pk or a MarketingTouch pk. -/
inductive SourceRef where
  | call (id : Nat)
  | touch (id : Nat)
deriving DecidableEq, Repr

/-- The `previous_attribution` entry that override_attribution writes into
evidence_json: the pre-override type, source repr and campaign name. -/
structure PrevAttribution where
  attrType : String
  source : Option SourceRef
  campaign : String
deriving DecidableEq, Repr

/-- The evidence_json dict built by create_attribution / override_attribution.
Keys that the code only sets conditionally are Option (none = key absent). -/
structure AttrEvidence where
  invoice_id : Nat
  invoice_amount : String
  paid_at : Int
  lookback_start : Int
  evaluated_at : Int
  call_events_found : Option Nat
  marketing_touches_found : Nat
  attribution_reason : Option String
  previous_attribution : Option PrevAttribution
deriving DecidableEq, Repr

/-- src/core/models.py Attribution (one row; one-to-one with Patient). -/
structure Attribution where
  patientId : Nat
  clinicId : Nat
  attribution_type : String
  status : String
  source : Option SourceRef
  campaign_name : String
  campaign_source : String
  campaign_medium : String
  evidence : AttrEvidence
  first_invoice_amount : Int
  first_invoice_date : Option Int
  overridden_by : Option Nat
  override_reason : String
  overridden_at : Option Int
deriving DecidableEq, Repr

/-- Stable insertion into a list sorted by descending key (order_by on a
descending timestamp). -/
def insertByTsDesc {α : Type} (ts : α → Int) (x : α) : List α → List α
  | [] => [x]
  | y :: ys => if ts y ≤ ts x then x :: y :: ys else y :: insertByTsDesc ts x ys

/-- Stable sort by descending key: models Django order_by('-timestamp'). -/
def sortByTsDesc {α : Type} (ts : α → Int) (l : List α) : List α :=
  l.foldr (insertByTsDesc ts) []

/-- Candidate set A of create_attribution: CallEvents of the patient's clinic
whose caller_phone equals the patient's phone, inside the 30-day lookback
window, most recent first; empty when the patient has no phone. -/
def callCandidates (patient : Patient) (invoice : Invoice)
    (allCalls : List CallEvent) : List CallEvent :=
  if patient.phone = "" then []
  else
    sortByTsDesc (fun c => c.timestamp)
      (allCalls.filter (fun c =>
        c.clinicId == patient.clinicId && c.caller_phone == patient.phone &&
        decide (invoice.paid_at - 30 * 86400 ≤ c.timestamp) &&
        decide (c.timestamp ≤ invoice.paid_at)))

/-- Candidate set B of create_attribution: MarketingTouches of the patient's
clinic whose email equals the patient's email, inside the 30-day lookback
window, most recent first; empty when the patient has no email. -/
def touchCandidates (patient : Patient) (invoice : Invoice)
    (allTouches : List MarketingTouch) : List MarketingTouch :=
  if patient.email = "" then []
  else
    sortByTsDesc (fun t => t.timestamp)
      (allTouches.filter (fun t =>
        t.clinicId == patient.clinicId && t.email == patient.email &&
        decide (invoice.paid_at - 30 * 86400 ≤ t.timestamp) &&
        decide (t.timestamp ≤ invoice.paid_at)))

/-- `touch.utm_medium in ['cpc', 'ppc', 'paid']`. -/
def isPaidMedium (t : MarketingTouch) : Bool :=
  t.utm_medium == "cpc" || t.utm_medium == "ppc" || t.utm_medium == "paid"

/-- Outcome of the precedence scan of create_attribution (lines 67-110 of
src/core/services.py). -/
structure RankResult where
  attribution_type : String
  source : Option SourceRef
  campaign_name : String
  campaign_source : String
  campaign_medium : String
  attribution_reason : Option String
deriving DecidableEq, Repr

/-- The fixed precedence policy of create_attribution, first match wins:
paid call, then paid marketing touch, then organic call, then organic
marketing touch, else unknown. -/
def rankCandidates (callEvents : List CallEvent)
    (marketingTouches : List MarketingTouch) : RankResult :=
  match callEvents.find? (fun c => decide (c.campaign_id ≠ "")) with
  | some call =>
      ⟨"call", some (SourceRef.call call.id), pyOr call.campaign_name "",
        "phone", "call", some "Matched paid campaign call"⟩
  | none =>
      match marketingTouches.find? isPaidMedium with
      | some touch =>
          ⟨"marketing_touch", some (SourceRef.touch touch.id),
            pyOr touch.utm_campaign "", pyOr touch.utm_source "",
            pyOr touch.utm_medium "", some "Matched paid marketing touch"⟩
      | none =>
          match callEvents with
          | call :: _ =>
              ⟨"call", some (SourceRef.call call.id), "", "organic", "call",
                some "Matched organic call"⟩
          | [] =>
              match marketingTouches with
              | touch :: _ =>
                  ⟨"marketing_touch", some (SourceRef.touch touch.id), "",
                    pyOr touch.utm_source "organic", pyOr touch.utm_medium "web",
                    some "Matched organic marketing touch"⟩
              | [] => ⟨"unknown", none, "", "", "", none⟩

/-- src/core/services.py create_attribution, as a pure function of the
existing Attribution row for the patient (update_or_create target), the
patient, the invoice, the CallEvent and MarketingTouch tables, and the
evaluation time.  update_or_create keeps the columns outside `defaults`
(status and the override metadata) when a row already exists. -/
def create_attribution (existing : Option Attribution) (patient : Patient)
    (invoice : Invoice) (allCalls : List CallEvent)
    (allTouches : List MarketingTouch) (now : Int) : Attribution :=
  let lookback_date := invoice.paid_at - 30 * 86400
  let call_events := callCandidates patient invoice allCalls
  let marketing_touches := touchCandidates patient invoice allTouches
  let r := rankCandidates call_events marketing_touches
  let evidence : AttrEvidence :=
    { invoice_id := invoice.id
      invoice_amount := toString invoice.total_amount
      paid_at := invoice.paid_at
      lookback_start := lookback_date
      evaluated_at := now
      call_events_found :=
        if patient.phone = "" then none else some call_events.length
      marketing_touches_found := marketing_touches.length
      attribution_reason := r.attribution_reason
      previous_attribution := none }
  { patientId := patient.id
    clinicId := patient.clinicId
    attribution_type := r.attribution_type
    status := match existing with | some a => a.status | none => "auto"
    source := r.source
    campaign_name := r.campaign_name
    campaign_source := r.campaign_source
    campaign_medium := r.campaign_medium
    evidence := evidence
    first_invoice_amount := invoice.total_amount
    first_invoice_date := some (epochDay invoice.paid_at)
    overridden_by := match existing with | some a => a.overridden_by | none => none
    override_reason := match existing with | some a => a.override_reason | none => ""
    overridden_at := match existing with | some a => a.overridden_at | none => none }

/-- EvaluateAttribution against the Attribution table: update_or_create keyed
by patient identity. Returns the new table and the persisted row. -/
def evaluateAttribution (db : List Attribution) (patient : Patient)
    (invoice : Invoice) (allCalls : List CallEvent)
    (allTouches : List MarketingTouch) (now : Int) :
    List Attribution × Attribution :=
  let existing := db.find? (fun a => a.patientId == patient.id)
  let row := create_attribution existing patient invoice allCalls allTouches now
  match existing with
  | some _ =>
      (db.map (fun a => if a.patientId == patient.id then row else a), row)
  | none => (db ++ [row], row)

/-- The new source handed to override_attribution: its pk reference, and its
campaign_name when the model exposes one (hasattr check: CallEvent does,
MarketingTouch does not). -/
structure NewSource where
  ref : SourceRef
  campaign_name : Option String
deriving DecidableEq, Repr

/-- src/core/services.py override_attribution: copies the current decision
into the `previous_attribution` evidence entry, optionally re-points the
source reference, and stamps the manual-override metadata. -/
def override_attribution (attribution : Attribution) (userId : Nat)
    (new_source : Option NewSource) (reason : String) (now : Int) : Attribution :=
  let old_evidence :=
    { attribution.evidence with
        previous_attribution := some
          { attrType := attribution.attribution_type
            source := attribution.source
            campaign := attribution.campaign_name } }
  let a1 :=
    match new_source with
    | some s =>
        { attribution with
            source := some s.ref
            campaign_name :=
              match s.campaign_name with
              | some n => pyOr n ""
              | none => attribution.campaign_name }
    | none => attribution
  { a1 with
      status := "manual"
      overridden_by := some userId
      override_reason := reason
      overridden_at := some now
      evidence := old_evidence }

/-- src/core/models.py AuditLog (the fields the immutability guard touches). -/
structure AuditLog where
  pk : Option Nat
  userId : Option Nat
  clinicId : Nat
  action : String
  object_id : Nat
  object_repr : String
deriving DecidableEq, Repr

/-- AuditLog.save: refuses any save of an instance that already has a primary
key; otherwise appends the row (the pk is assigned by the store). -/
def AuditLog.save (row : AuditLog) (db : List AuditLog) :
    Except String (List AuditLog) :=
  match row.pk with
  | some _ => Except.error "AuditLog entries cannot be modified"
  | none => Except.ok (db ++ [{ row with pk := some (db.length + 1) }])

/-- AuditLog.delete: always refuses. -/
def AuditLog.delete (_row : AuditLog) (db : List AuditLog) :
    Except String (List AuditLog) :=
  Except.error "AuditLog entries cannot be deleted"

/-- src/operations/models.py Task (the fields the generators write). -/
structure Task where
  clinicId : Nat
  patientId : Nat
  task_type : String
  title : String
  description : String
  priority : Nat
  status : String
  source_type : String
  source_id : Option Nat
  idempotency_key : String
deriving DecidableEq, Repr

/-- src/operations/models.py ReviewRequest (the fields the generator writes). -/
structure ReviewRequest where
  clinicId : Nat
  patientId : Nat
  appointmentId : Nat
  status : String
  channel : String
  scheduled_at : Int
  idempotency_key : String
deriving DecidableEq, Repr

/-- src/operations/models.py TreatmentPlan (the fields the generator reads). -/
structure TreatmentPlan where
  id : Nat
  clinicId : Nat
  patientId : Nat
  title : String
  status : String
  sent_at : Option Int
deriving DecidableEq, Repr

/-- The persistent store as seen by the four generators of
src/operations/tasks.py. -/
structure OpsState where
  clinics : List Clinic
  patients : List Patient
  appointments : List Appointment
  callEvents : List CallEvent
  treatmentPlans : List TreatmentPlan
  tasks : List Task
  reviewRequests : List ReviewRequest
deriving DecidableEq, Repr

/-- Idempotency keys of all Task rows. -/
def taskKeys (st : OpsState) : List String :=
  st.tasks.map (fun t => t.idempotency_key)

/-- Idempotency keys of all ReviewRequest rows. -/
def reviewKeys (st : OpsState) : List String :=
  st.reviewRequests.map (fun r => r.idempotency_key)

/-- `Task.objects.filter(idempotency_key=key).exists()`. -/
def taskKeyExists (st : OpsState) (key : String) : Bool :=
  st.tasks.any (fun t => t.idempotency_key == key)

/-- `ReviewRequest.objects.filter(idempotency_key=key).exists()`. -/
def reviewKeyExists (st : OpsState) (key : String) : Bool :=
  st.reviewRequests.any (fun r => r.idempotency_key == key)

/-- `Patient.objects.filter(clinic=clinic, phone=phone).first()`. -/
def findPatientByPhone (st : OpsState) (clinicId : Nat) (phone : String) :
    Option Patient :=
  st.patients.find? (fun p => p.clinicId == clinicId && p.phone == phone)

/-- `Patient` FK dereference by pk (used where Django follows appt.patient). -/
def findPatientById (st : OpsState) (patientId : Nat) : Option Patient :=
  st.patients.find? (fun p => p.id == patientId)

/-- `clinic__is_active=True` join filter. -/
def clinicActive (st : OpsState) (clinicId : Nat) : Bool :=
  st.clinics.any (fun c => c.id == clinicId && c.is_active)

/-- `Clinic.objects.filter(is_active=True)`. -/
def activeClinics (st : OpsState) : List Clinic :=
  st.clinics.filter (fun c => c.is_active)

/-! ### generate_missed_call_tasks (src/operations/tasks.py lines 15-80) -/

/-- The idempotency key of a callback task. -/
def cbKey (call : CallEvent) : String := "callback_call_" ++ call.call_sid

/-- The missed-call scan of one clinic: calls of the last 24 hours with
duration below 30 seconds, no resulting appointment, not yet processed. -/
def missedCallsFor (st : OpsState) (clinic : Clinic) (now : Int) :
    List CallEvent :=
  st.callEvents.filter (fun c =>
    c.clinicId == clinic.id &&
    decide (now - 24 * 3600 ≤ c.timestamp) &&
    decide (c.duration_seconds < 30) &&
    !c.resulted_in_appointment &&
    !c.is_processed)

/-- The callback Task record the generator persists for one missed call. -/
def cbTask (clinic : Clinic) (patient : Patient) (call : CallEvent) : Task :=
  { clinicId := clinic.id
    patientId := patient.id
    task_type := "callback"
    title := "Callback - Missed call from " ++ call.caller_phone
    description := "Missed call at " ++ timeHM call.timestamp ++
      ". Duration: " ++ toString call.duration_seconds ++ "s"
    priority := 2
    status := "pending"
    source_type := "call_event"
    source_id := some call.id
    idempotency_key := cbKey call }

/-- The body of the missed-call loop: skip when the key already exists, skip
when no patient matches the caller phone, else create the callback Task and
mark the CallEvent processed. -/
def cbStep (clinic : Clinic) (acc : OpsState × Nat) (call : CallEvent) :
    OpsState × Nat :=
  let st := acc.1
  if taskKeyExists st (cbKey call) then acc
  else
    match findPatientByPhone st clinic.id call.caller_phone with
    | none => acc
    | some patient =>
        ({ st with
            tasks := st.tasks ++ [cbTask clinic patient call]
            callEvents := st.callEvents.map (fun c =>
              if c.id == call.id then { c with is_processed := true } else c) },
          acc.2 + 1)

/-- One clinic's pass of generate_missed_call_tasks. -/
def cbClinic (now : Int) (acc : OpsState × Nat) (clinic : Clinic) :
    OpsState × Nat :=
  (missedCallsFor acc.1 clinic now).foldl (cbStep clinic) acc

/-- generate_missed_call_tasks: iterate the active clinics; returns the new
store and the created-task count. -/
def generate_missed_call_tasks (st : OpsState) (now : Int) : OpsState × Nat :=
  (activeClinics st).foldl (cbClinic now) (st, 0)

/-! ### generate_review_request_tasks (src/operations/tasks.py lines 83-135) -/

/-- The idempotency key of a review request. -/
def rrKey (appt : Appointment) : String := "review_" ++ appt.cliniko_id

/-- The review-request scan: completed appointments of active clinics whose
scheduled_at lies in the plus-or-minus one hour window around 24 hours ago. -/
def reviewScan (st : OpsState) (now : Int) : List Appointment :=
  st.appointments.filter (fun a =>
    a.status == "completed" &&
    clinicActive st a.clinicId &&
    decide (now - 25 * 3600 ≤ a.scheduled_at) &&
    decide (a.scheduled_at ≤ now - 23 * 3600))

/-- The ReviewRequest record the generator persists for one appointment. -/
def rrReq (now : Int) (patient : Patient) (appt : Appointment) : ReviewRequest :=
  { clinicId := appt.clinicId
    patientId := patient.id
    appointmentId := appt.id
    status := "pending"
    channel := if patient.sms_consent then "sms" else "email"
    scheduled_at := now
    idempotency_key := rrKey appt }

/-- The body of the review-request loop: skip without consent, skip when the
key already exists, else create the ReviewRequest (channel sms when the
patient has sms consent, else email). -/
def rrStep (now : Int) (acc : OpsState × Nat) (appt : Appointment) :
    OpsState × Nat :=
  let st := acc.1
  match findPatientById st appt.patientId with
  | none => acc
  | some patient =>
      if !(patient.sms_consent || patient.email_consent) then acc
      else
        if reviewKeyExists st (rrKey appt) then acc
        else
          ({ st with reviewRequests := st.reviewRequests ++ [rrReq now patient appt] },
            acc.2 + 1)

/-- generate_review_request_tasks. -/
def generate_review_request_tasks (st : OpsState) (now : Int) :
    OpsState × Nat :=
  (reviewScan st now).foldl (rrStep now) (st, 0)

/-! ### generate_treatment_followup_tasks (src/operations/tasks.py 138-183) -/

/-- The idempotency key of a treatment follow-up task. -/
def tfKey (plan : TreatmentPlan) : String :=
  "treatment_followup_" ++ toString plan.id

/-- The treatment-plan scan: sent plans of active clinics whose sent_at lies
in the plus-or-minus 12 hour window around 7 days ago. -/
def treatmentScan (st : OpsState) (now : Int) : List TreatmentPlan :=
  st.treatmentPlans.filter (fun p =>
    p.status == "sent" &&
    clinicActive st p.clinicId &&
    p.sent_at.any (fun t =>
      decide (now - 7 * 86400 - 12 * 3600 ≤ t) &&
      decide (t ≤ now - 7 * 86400 + 12 * 3600)))

/-- The Task record the generator persists for one treatment plan. -/
def tfTask (plan : TreatmentPlan) : Task :=
  { clinicId := plan.clinicId
    patientId := plan.patientId
    task_type := "treatment_followup"
    title := "Follow up on treatment plan: " ++ plan.title
    description := "Treatment plan sent " ++
      (match plan.sent_at with | some t => dateYMD t | none => "") ++
      " with no response."
    priority := 3
    status := "pending"
    source_type := "treatment_plan"
    source_id := some plan.id
    idempotency_key := tfKey plan }

/-- The body of the treatment follow-up loop. -/
def tfStep (acc : OpsState × Nat) (plan : TreatmentPlan) : OpsState × Nat :=
  let st := acc.1
  if taskKeyExists st (tfKey plan) then acc
  else ({ st with tasks := st.tasks ++ [tfTask plan] }, acc.2 + 1)

/-- generate_treatment_followup_tasks. -/
def generate_treatment_followup_tasks (st : OpsState) (now : Int) :
    OpsState × Nat :=
  (treatmentScan st now).foldl tfStep (st, 0)

/-! ### generate_recall_tasks (src/operations/tasks.py lines 186-225) -/

/-- The idempotency key of a recall task: includes the current year-month. -/
def rcKey (now : Int) (patient : Patient) : String :=
  "recall_" ++ toString patient.id ++ "_" ++ monthKey now

/-- The recall scan: patients of active clinics whose last appointment date is
older than 180 days. -/
def recallScan (st : OpsState) (now : Int) : List Patient :=
  st.patients.filter (fun p =>
    clinicActive st p.clinicId &&
    p.last_appointment_date.any (fun d =>
      decide (d < epochDay (now - 180 * 86400))))

/-- The Task record the generator persists for one recall patient. -/
def rcTask (now : Int) (patient : Patient) : Task :=
  { clinicId := patient.clinicId
    patientId := patient.id
    task_type := "recall"
    title := "Recall: " ++ patient.first_name ++ " " ++ patient.last_name
    description := "Last visit: " ++
      (match patient.last_appointment_date with
       | some d => dateYMD (d * 86400) | none => "None") ++
      ". Consider reaching out."
    priority := 4
    status := "pending"
    source_type := ""
    source_id := none
    idempotency_key := rcKey now patient }

/-- The body of the recall loop. -/
def rcStep (now : Int) (acc : OpsState × Nat) (patient : Patient) :
    OpsState × Nat :=
  let st := acc.1
  if taskKeyExists st (rcKey now patient) then acc
  else ({ st with tasks := st.tasks ++ [rcTask now patient] }, acc.2 + 1)

/-- generate_recall_tasks. -/
def generate_recall_tasks (st : OpsState) (now : Int) : OpsState × Nat :=
  (recallScan st now).foldl (rcStep now) (st, 0)

/-! ### Coverage predicates (why a loop body skips a trigger) -/

/-- CallEvent rows only ever flip is_processed from false to true: any row
still unprocessed after a step was present, unchanged, before it. -/
def evolvesCalls (l1 l2 : List CallEvent) : Prop :=
  ∀ e ∈ l2, e.is_processed = false → e ∈ l1

/-- A missed call is "covered" for a clinic id when its idempotency key is
already materialized or no patient matches its caller phone: in either case
the loop body skips it. -/
def cbCovered (st : OpsState) (cid : Nat) (call : CallEvent) : Prop :=
  cbKey call ∈ taskKeys st ∨ findPatientByPhone st cid call.caller_phone = none

/-- An appointment is "covered" when the loop body will skip it: its key is
materialized, or its patient is unresolvable, or the patient lacks both
consents. -/
def rrCovered (st : OpsState) (appt : Appointment) : Prop :=
  rrKey appt ∈ reviewKeys st ∨
  findPatientById st appt.patientId = none ∨
  ∃ p, findPatientById st appt.patientId = some p ∧
    (p.sms_consent || p.email_consent) = false

/-! ### Concrete fixtures used by scenario claims and witnesses -/

def wClinic : Clinic := { id := 1, name := "Main Street Clinic", is_active := true }

def wPatient : Patient :=
  { id := 1, clinicId := 1, first_name := "Jo", last_name := "Smith",
    email := "jo@example.com", phone := "+61555000111",
    sms_consent := true, email_consent := false,
    last_appointment_date := some 19300 }

def wInvoice : Invoice :=
  { id := 11, clinicId := 1, patientId := 1, total_amount := 250,
    paid_at := 1700000000 }

def wPaidCall : CallEvent :=
  { id := 5, clinicId := 1, call_sid := "CA900", caller_phone := "+61555000111",
    duration_seconds := 120, timestamp := 1699900000, campaign_id := "G123",
    campaign_name := "Summer Sale", resulted_in_appointment := true,
    is_processed := true }

def wOrganicCall : CallEvent :=
  { id := 6, clinicId := 1, call_sid := "CA901", caller_phone := "+61555000111",
    duration_seconds := 200, timestamp := 1699910000, campaign_id := "",
    campaign_name := "", resulted_in_appointment := false, is_processed := true }

def wPaidTouch : MarketingTouch :=
  { id := 8, clinicId := 1, email := "jo@example.com", utm_source := "google",
    utm_medium := "cpc", utm_campaign := "spring", timestamp := 1699500000 }

def wOrganicTouch : MarketingTouch :=
  { id := 7, clinicId := 1, email := "jo@example.com", utm_source := "bing",
    utm_medium := "organic", utm_campaign := "", timestamp := 1699000000 }

def pNoContact : Patient :=
  { id := 2, clinicId := 1, first_name := "No", last_name := "Contact",
    email := "", phone := "", sms_consent := false, email_consent := false,
    last_appointment_date := none }

def invNC : Invoice :=
  { id := 12, clinicId := 1, patientId := 2, total_amount := 150,
    paid_at := 1700000000 }

def evA : AttrEvidence :=
  { invoice_id := 11, invoice_amount := "250", paid_at := 1700000000,
    lookback_start := 1697408000, evaluated_at := 1700000050,
    call_events_found := some 1, marketing_touches_found := 0,
    attribution_reason := some "Matched paid campaign call",
    previous_attribution := none }

def attrA : Attribution :=
  { patientId := 1, clinicId := 1, attribution_type := "call", status := "auto",
    source := some (SourceRef.call 5), campaign_name := "Summer Sale",
    campaign_source := "phone", campaign_medium := "call", evidence := evA,
    first_invoice_amount := 250, first_invoice_date := some 19675,
    overridden_by := none, override_reason := "", overridden_at := none }

def nsB : NewSource :=
  { ref := SourceRef.call 6, campaign_name := some "Other Campaign" }

def nsC : NewSource :=
  { ref := SourceRef.call 9, campaign_name := some "Winter Promo" }

def wLog : AuditLog :=
  { pk := some 3, userId := some 4, clinicId := 1, action := "update",
    object_id := 7, object_repr := "Patient Jo Smith" }

def wCallC7 : CallEvent :=
  { id := 21, clinicId := 1, call_sid := "CA123",
    caller_phone := "+61555000111", duration_seconds := 15,
    timestamp := 1699996400, campaign_id := "", campaign_name := "",
    resulted_in_appointment := false, is_processed := false }

def stC7 : OpsState :=
  { clinics := [wClinic], patients := [wPatient], appointments := [],
    callEvents := [wCallC7], treatmentPlans := [], tasks := [],
    reviewRequests := [] }

/-! ### Generic lemmas about batch loops -/

theorem foldl_preserves {σ α : Type} (P : σ → Prop) (f : σ → α → σ)
    (h : ∀ s a, P s → P (f s a)) :
    ∀ (l : List α) (s : σ), P s → P (l.foldl f s) := by
  intro l
  induction l with
  | nil => intro s hs; exact hs
  | cons a t ih => intro s hs; rw [List.foldl_cons]; exact ih (f s a) (h s a hs)

theorem foldl_establishes {σ α : Type} (Q : σ → α → Prop) (f : σ → α → σ)
    (mono : ∀ s a b, Q s b → Q (f s a) b) (self : ∀ s a, Q (f s a) a) :
    ∀ (l : List α) (s : σ) (b : α), b ∈ l → Q (l.foldl f s) b := by
  intro l
  induction l with
  | nil => intro s b hb; cases hb
  | cons a t ih =>
      intro s b hb
      rw [List.foldl_cons]
      rcases List.mem_cons.mp hb with h1 | h1
      · subst h1
        exact foldl_preserves (fun s => Q s b) f (fun s c hc => mono s c b hc)
          t (f s b) (self s b)
      · exact ih (f s a) b h1

theorem foldl_fix {σ α : Type} (C : σ → α → Prop) (f : σ → α → σ)
    (hid : ∀ s a, C s a → f s a = s) :
    ∀ (l : List α) (s : σ), (∀ a ∈ l, C s a) → l.foldl f s = s := by
  intro l
  induction l with
  | nil => intro s _; rfl
  | cons a t ih =>
      intro s h
      rw [List.foldl_cons, hid s a (h a (List.mem_cons_self a t))]
      exact ih s (fun b hb => h b (List.mem_cons_of_mem a hb))

/-- A loop step that either leaves the key column unchanged or appends one
fresh key preserves distinctness of the keys. -/
theorem step_keys_nodup {σ α : Type} (keys : σ → List String) (f : σ → α → σ)
    (h : ∀ s a, keys (f s a) = keys s ∨
      ∃ k, k ∉ keys s ∧ keys (f s a) = keys s ++ [k]) :
    ∀ s a, (keys s).Nodup → (keys (f s a)).Nodup := by
  intro s a hs
  rcases h s a with he | ⟨k, hk, he⟩
  · rw [he]; exact hs
  · rw [he]
    refine List.nodup_append.mpr ⟨hs, List.nodup_singleton k, ?_⟩
    intro x hx hx2
    rw [List.mem_singleton] at hx2
    subst hx2
    exact hk hx

/-- A loop step of the append-one-fresh-key shape never removes a key. -/
theorem step_keys_subset {σ α : Type} (keys : σ → List String) (f : σ → α → σ)
    (h : ∀ s a, keys (f s a) = keys s ∨
      ∃ k, k ∉ keys s ∧ keys (f s a) = keys s ++ [k]) :
    ∀ s a, keys s ⊆ keys (f s a) := by
  intro s a x hx
  rcases h s a with he | ⟨k, _, he⟩
  · rw [he]; exact hx
  · rw [he]; exact List.mem_append_left _ hx

theorem taskKey_not_mem_of_exists_false {st : OpsState} {k : String}
    (h : taskKeyExists st k = false) : k ∉ taskKeys st := by
  intro hm
  rw [taskKeys, List.mem_map] at hm
  obtain ⟨t, ht, hk⟩ := hm
  rw [taskKeyExists, List.any_eq_false] at h
  exact h t ht (by rw [hk]; exact beq_self_eq_true k)

theorem taskKey_mem_of_exists_true {st : OpsState} {k : String}
    (h : taskKeyExists st k = true) : k ∈ taskKeys st := by
  rw [taskKeyExists, List.any_eq_true] at h
  obtain ⟨t, ht, hk⟩ := h
  rw [taskKeys, List.mem_map]
  exact ⟨t, ht, eq_of_beq hk⟩

theorem taskKeyExists_true_of_mem {st : OpsState} {k : String}
    (h : k ∈ taskKeys st) : taskKeyExists st k = true := by
  rw [taskKeys, List.mem_map] at h
  obtain ⟨t, ht, hk⟩ := h
  rw [taskKeyExists, List.any_eq_true]
  exact ⟨t, ht, by rw [hk]; exact beq_self_eq_true k⟩

theorem reviewKey_not_mem_of_exists_false {st : OpsState} {k : String}
    (h : reviewKeyExists st k = false) : k ∉ reviewKeys st := by
  intro hm
  rw [reviewKeys, List.mem_map] at hm
  obtain ⟨t, ht, hk⟩ := hm
  rw [reviewKeyExists, List.any_eq_false] at h
  exact h t ht (by rw [hk]; exact beq_self_eq_true k)

theorem reviewKeyExists_true_of_mem {st : OpsState} {k : String}
    (h : k ∈ reviewKeys st) : reviewKeyExists st k = true := by
  rw [reviewKeys, List.mem_map] at h
  obtain ⟨t, ht, hk⟩ := h
  rw [reviewKeyExists, List.any_eq_true]
  exact ⟨t, ht, by rw [hk]; exact beq_self_eq_true k⟩

/-! ### Lemmas about the callback generator -/

/-- One missed-call step either skips (no change at all) or creates the
callback task and marks the call processed. -/
theorem cbStep_cases (clinic : Clinic) (acc : OpsState × Nat) (call : CallEvent) :
    cbStep clinic acc call = acc ∨
    ∃ p, taskKeyExists acc.1 (cbKey call) = false ∧
      findPatientByPhone acc.1 clinic.id call.caller_phone = some p ∧
      cbStep clinic acc call =
        ({ acc.1 with
            tasks := acc.1.tasks ++ [cbTask clinic p call]
            callEvents := acc.1.callEvents.map (fun c =>
              if c.id == call.id then { c with is_processed := true } else c) },
          acc.2 + 1) := by
  cases h : taskKeyExists acc.1 (cbKey call) with
  | true => left; unfold cbStep; simp [h]
  | false =>
      cases hp : findPatientByPhone acc.1 clinic.id call.caller_phone with
      | none => left; unfold cbStep; simp [h, hp]
      | some p => right; exact ⟨p, rfl, rfl, by unfold cbStep; simp [h, hp]⟩

theorem cbStep_clinics (clinic : Clinic) (acc : OpsState × Nat)
    (call : CallEvent) : (cbStep clinic acc call).1.clinics = acc.1.clinics := by
  rcases cbStep_cases clinic acc call with h | ⟨p, _, _, h⟩ <;> rw [h]

theorem cbStep_patients (clinic : Clinic) (acc : OpsState × Nat)
    (call : CallEvent) : (cbStep clinic acc call).1.patients = acc.1.patients := by
  rcases cbStep_cases clinic acc call with h | ⟨p, _, _, h⟩ <;> rw [h]

theorem cbStep_keys_shape (clinic : Clinic) (acc : OpsState × Nat)
    (call : CallEvent) :
    taskKeys (cbStep clinic acc call).1 = taskKeys acc.1 ∨
    ∃ k, k ∉ taskKeys acc.1 ∧
      taskKeys (cbStep clinic acc call).1 = taskKeys acc.1 ++ [k] := by
  rcases cbStep_cases clinic acc call with h | ⟨p, h1, hp, h⟩
  · left; rw [h]
  · right
    refine ⟨cbKey call, taskKey_not_mem_of_exists_false h1, ?_⟩
    rw [h]
    simp [taskKeys, cbTask]

/-- A callback step never removes a task key. -/
theorem cbStep_keys_subset (clinic : Clinic) (acc : OpsState × Nat)
    (call : CallEvent) : taskKeys acc.1 ⊆ taskKeys (cbStep clinic acc call).1 :=
  step_keys_subset (fun s => taskKeys s.1) (cbStep clinic)
    (fun s a => cbStep_keys_shape clinic s a) acc call

theorem evolvesCalls_refl (l : List CallEvent) : evolvesCalls l l :=
  fun e he _ => he

theorem evolvesCalls_trans {l1 l2 l3 : List CallEvent}
    (h12 : evolvesCalls l1 l2) (h23 : evolvesCalls l2 l3) :
    evolvesCalls l1 l3 :=
  fun e he hp => h12 e (h23 e he hp) hp

theorem cbStep_evolves (clinic : Clinic) (acc : OpsState × Nat)
    (call : CallEvent) :
    evolvesCalls acc.1.callEvents (cbStep clinic acc call).1.callEvents := by
  rcases cbStep_cases clinic acc call with h | ⟨p, h1, hp, h⟩
  · rw [h]; exact evolvesCalls_refl _
  · rw [h]
    intro e he hproc
    simp only [List.mem_map] at he
    obtain ⟨c, hc, hce⟩ := he
    by_cases hid : (c.id == call.id) = true
    · rw [if_pos hid] at hce
      rw [← hce] at hproc
      simp at hproc
    · rw [if_neg hid] at hce
      rw [← hce]
      exact hc

theorem cbStep_skip (clinic : Clinic) (acc : OpsState × Nat) (call : CallEvent)
    (h : cbCovered acc.1 clinic.id call) : cbStep clinic acc call = acc := by
  rcases h with hk | hnp
  · unfold cbStep; simp [taskKeyExists_true_of_mem hk]
  · cases hke : taskKeyExists acc.1 (cbKey call) with
    | true => unfold cbStep; simp [hke]
    | false => unfold cbStep; simp [hke, hnp]

theorem cbStep_self (clinic : Clinic) (acc : OpsState × Nat)
    (call : CallEvent) : cbCovered (cbStep clinic acc call).1 clinic.id call := by
  cases h : taskKeyExists acc.1 (cbKey call) with
  | true =>
      have he : cbStep clinic acc call = acc := by unfold cbStep; simp [h]
      rw [he]
      exact Or.inl (taskKey_mem_of_exists_true h)
  | false =>
      cases hp : findPatientByPhone acc.1 clinic.id call.caller_phone with
      | none =>
          have he : cbStep clinic acc call = acc := by unfold cbStep; simp [h, hp]
          rw [he]
          exact Or.inr hp
      | some p =>
          left
          have he : cbStep clinic acc call =
              ({ acc.1 with
                  tasks := acc.1.tasks ++ [cbTask clinic p call]
                  callEvents := acc.1.callEvents.map (fun c =>
                    if c.id == call.id then { c with is_processed := true } else c) },
                acc.2 + 1) := by
            unfold cbStep; simp [h, hp]
          rw [he]
          simp [taskKeys, cbTask]

theorem cbStep_mono (clinic : Clinic) (acc : OpsState × Nat) (a : CallEvent)
    {cid : Nat} {call : CallEvent} (h : cbCovered acc.1 cid call) :
    cbCovered (cbStep clinic acc a).1 cid call := by
  rcases h with hk | hnp
  · exact Or.inl (cbStep_keys_subset clinic acc a hk)
  · right
    rw [findPatientByPhone] at hnp ⊢
    rw [cbStep_patients]
    exact hnp

theorem cbClinic_clinics (now : Int) (acc : OpsState × Nat) (c : Clinic) :
    (cbClinic now acc c).1.clinics = acc.1.clinics := by
  unfold cbClinic
  exact foldl_preserves (fun s => s.1.clinics = acc.1.clinics) (cbStep c)
    (fun s a h => (cbStep_clinics c s a).trans h)
    (missedCallsFor acc.1 c now) acc rfl

theorem cbClinic_evolves (now : Int) (acc : OpsState × Nat) (c : Clinic) :
    evolvesCalls acc.1.callEvents (cbClinic now acc c).1.callEvents := by
  unfold cbClinic
  exact foldl_preserves (fun s => evolvesCalls acc.1.callEvents s.1.callEvents)
    (cbStep c) (fun s a h => evolvesCalls_trans h (cbStep_evolves c s a))
    (missedCallsFor acc.1 c now) acc (evolvesCalls_refl _)

theorem cbClinic_mono (now : Int) (acc : OpsState × Nat) (c : Clinic)
    {cid : Nat} {call : CallEvent} (h : cbCovered acc.1 cid call) :
    cbCovered (cbClinic now acc c).1 cid call := by
  unfold cbClinic
  exact foldl_preserves (fun s => cbCovered s.1 cid call) (cbStep c)
    (fun s a hs => cbStep_mono c s a hs) (missedCallsFor acc.1 c now) acc h

theorem cbFold_evolves (now : Int) (cl : List Clinic) (acc : OpsState × Nat) :
    evolvesCalls acc.1.callEvents
      ((cl.foldl (cbClinic now) acc)).1.callEvents := by
  exact foldl_preserves (fun s => evolvesCalls acc.1.callEvents s.1.callEvents)
    (cbClinic now)
    (fun s a h => evolvesCalls_trans h (cbClinic_evolves now s a))
    cl acc (evolvesCalls_refl _)

/-- A call still in a missed-call scan after processing was in the scan of
the pre-processing store. -/
theorem missed_mem_of_evolves {st1 st2 : OpsState}
    (h : evolvesCalls st1.callEvents st2.callEvents)
    {c : Clinic} {now : Int} {call : CallEvent}
    (hm : call ∈ missedCallsFor st2 c now) :
    call ∈ missedCallsFor st1 c now := by
  rw [missedCallsFor, List.mem_filter] at hm ⊢
  refine ⟨h call hm.1 ?_, hm.2⟩
  have h2 := hm.2
  simp only [Bool.and_eq_true, Bool.not_eq_true'] at h2
  exact h2.2

/-- After a full run of the callback generator, every call that a clinic's
scan can still see is covered: its key is materialized, or its caller phone
resolves to no patient. -/
theorem cb_run_covers (now : Int) :
    ∀ (cl : List Clinic) (acc : OpsState × Nat) (c : Clinic), c ∈ cl →
      ∀ call ∈ missedCallsFor (cl.foldl (cbClinic now) acc).1 c now,
        cbCovered (cl.foldl (cbClinic now) acc).1 c.id call := by
  intro cl
  induction cl with
  | nil => intro acc c hc; cases hc
  | cons c0 rest ih =>
      intro acc c hc call hcall
      rw [List.foldl_cons] at hcall ⊢
      rcases List.mem_cons.mp hc with h1 | h1
      · subst h1
        have hev2 : evolvesCalls (cbClinic now acc c).1.callEvents
            (rest.foldl (cbClinic now) (cbClinic now acc c)).1.callEvents :=
          cbFold_evolves now rest (cbClinic now acc c)
        have hmem1 : call ∈ missedCallsFor (cbClinic now acc c).1 c now :=
          missed_mem_of_evolves hev2 hcall
        have hev1 : evolvesCalls acc.1.callEvents
            (cbClinic now acc c).1.callEvents := cbClinic_evolves now acc c
        have hmem0 : call ∈ missedCallsFor acc.1 c now :=
          missed_mem_of_evolves hev1 hmem1
        have hcov1 : cbCovered (cbClinic now acc c).1 c.id call := by
          unfold cbClinic
          exact foldl_establishes (fun s b => cbCovered s.1 c.id b) (cbStep c)
            (fun s a b hb => cbStep_mono c s a hb)
            (fun s a => cbStep_self c s a)
            (missedCallsFor acc.1 c now) acc call hmem0
        exact foldl_preserves (fun s => cbCovered s.1 c.id call) (cbClinic now)
          (fun s a hs => cbClinic_mono now s a hs) rest (cbClinic now acc c) hcov1
      · exact ih (cbClinic now acc c0) c h1 call hcall

/-- When every scanned call of every active clinic is covered, the callback
generator is a no-op returning count 0. -/
theorem cb_zero_of_covered (st : OpsState) (now : Int)
    (h : ∀ c ∈ activeClinics st, ∀ call ∈ missedCallsFor st c now,
      cbCovered st c.id call) :
    generate_missed_call_tasks st now = (st, 0) := by
  unfold generate_missed_call_tasks
  exact foldl_fix
    (fun s c => ∀ call ∈ missedCallsFor s.1 c now, cbCovered s.1 c.id call)
    (cbClinic now)
    (fun s c hC => by
      unfold cbClinic
      exact foldl_fix (fun s2 call => cbCovered s2.1 c.id call) (cbStep c)
        (fun s2 call h2 => cbStep_skip c s2 call h2)
        (missedCallsFor s.1 c now) s hC)
    (activeClinics st) (st, 0) (fun c hc => h c hc)

/-- Re-running the callback generator over the same window changes nothing
and creates zero tasks. -/
theorem cb_rerun (st : OpsState) (now : Int) :
    generate_missed_call_tasks (generate_missed_call_tasks st now).1 now
      = ((generate_missed_call_tasks st now).1, 0) := by
  apply cb_zero_of_covered
  intro c hc call hcall
  have hclin : (generate_missed_call_tasks st now).1.clinics = st.clinics := by
    unfold generate_missed_call_tasks
    exact foldl_preserves (fun s => s.1.clinics = st.clinics) (cbClinic now)
      (fun s a h2 => (cbClinic_clinics now s a).trans h2)
      (activeClinics st) (st, 0) rfl
  have hc2 : c ∈ activeClinics st := by
    rw [activeClinics] at hc ⊢
    rw [hclin] at hc
    exact hc
  unfold generate_missed_call_tasks at hcall ⊢
  exact cb_run_covers now (activeClinics st) (st, 0) c hc2 call hcall

/-- One run of the callback generator keeps all task keys distinct. -/
theorem cb_nodup (st : OpsState) (now : Int)
    (h : (taskKeys st).Nodup) :
    (taskKeys (generate_missed_call_tasks st now).1).Nodup := by
  unfold generate_missed_call_tasks
  exact foldl_preserves (fun s => (taskKeys s.1).Nodup) (cbClinic now)
    (fun s c hs => by
      unfold cbClinic
      exact foldl_preserves (fun s2 => (taskKeys s2.1).Nodup) (cbStep c)
        (fun s2 a h2 => step_keys_nodup (fun x => taskKeys x.1) (cbStep c)
          (fun x a2 => cbStep_keys_shape c x a2) s2 a h2)
        (missedCallsFor s.1 c now) s hs)
    (activeClinics st) (st, 0) h

/-! ### Lemmas about the review-request generator -/

theorem reviewKey_mem_of_exists_true {st : OpsState} {k : String}
    (h : reviewKeyExists st k = true) : k ∈ reviewKeys st := by
  rw [reviewKeyExists, List.any_eq_true] at h
  obtain ⟨t, ht, hk⟩ := h
  rw [reviewKeys, List.mem_map]
  exact ⟨t, ht, eq_of_beq hk⟩

/-- One review-request step either skips (no change) or creates the request. -/
theorem rrStep_cases (now : Int) (acc : OpsState × Nat) (appt : Appointment) :
    rrStep now acc appt = acc ∨
    ∃ p, findPatientById acc.1 appt.patientId = some p ∧
      (p.sms_consent || p.email_consent) = true ∧
      reviewKeyExists acc.1 (rrKey appt) = false ∧
      rrStep now acc appt =
        ({ acc.1 with
            reviewRequests := acc.1.reviewRequests ++ [rrReq now p appt] },
          acc.2 + 1) := by
  cases hp : findPatientById acc.1 appt.patientId with
  | none => left; unfold rrStep; simp [hp]
  | some p =>
      cases hcons : (p.sms_consent || p.email_consent) with
      | false => left; unfold rrStep; simp [hp, hcons]
      | true =>
          cases hk : reviewKeyExists acc.1 (rrKey appt) with
          | true => left; unfold rrStep; simp [hp, hcons, hk]
          | false =>
              right
              exact ⟨p, rfl, hcons, rfl, by unfold rrStep; simp [hp, hcons, hk]⟩

theorem rrStep_frame (now : Int) (acc : OpsState × Nat) (appt : Appointment) :
    (rrStep now acc appt).1.clinics = acc.1.clinics ∧
    (rrStep now acc appt).1.patients = acc.1.patients ∧
    (rrStep now acc appt).1.appointments = acc.1.appointments ∧
    (rrStep now acc appt).1.callEvents = acc.1.callEvents ∧
    (rrStep now acc appt).1.treatmentPlans = acc.1.treatmentPlans ∧
    (rrStep now acc appt).1.tasks = acc.1.tasks := by
  rcases rrStep_cases now acc appt with h | ⟨p, _, _, _, h⟩ <;>
    rw [h] <;> exact ⟨rfl, rfl, rfl, rfl, rfl, rfl⟩

theorem rrStep_keys_shape (now : Int) (acc : OpsState × Nat)
    (appt : Appointment) :
    reviewKeys (rrStep now acc appt).1 = reviewKeys acc.1 ∨
    ∃ k, k ∉ reviewKeys acc.1 ∧
      reviewKeys (rrStep now acc appt).1 = reviewKeys acc.1 ++ [k] := by
  rcases rrStep_cases now acc appt with h | ⟨p, hp, hcons, hk, h⟩
  · left; rw [h]
  · right
    refine ⟨rrKey appt, reviewKey_not_mem_of_exists_false hk, ?_⟩
    rw [h]
    simp [reviewKeys, rrReq]

theorem rrStep_keys_subset (now : Int) (acc : OpsState × Nat)
    (appt : Appointment) :
    reviewKeys acc.1 ⊆ reviewKeys (rrStep now acc appt).1 :=
  step_keys_subset (fun s => reviewKeys s.1) (rrStep now)
    (fun s a => rrStep_keys_shape now s a) acc appt

theorem rrStep_skip (now : Int) (acc : OpsState × Nat) (appt : Appointment)
    (h : rrCovered acc.1 appt) : rrStep now acc appt = acc := by
  rcases h with hkey | hnp | ⟨p, hp, hcons⟩
  · cases hp : findPatientById acc.1 appt.patientId with
    | none => unfold rrStep; simp [hp]
    | some p =>
        cases hcons : (p.sms_consent || p.email_consent) with
        | false => unfold rrStep; simp [hp, hcons]
        | true =>
            unfold rrStep
            simp [hp, hcons, reviewKeyExists_true_of_mem hkey]
  · unfold rrStep; simp [hnp]
  · unfold rrStep; simp [hp, hcons]

theorem rrStep_self (now : Int) (acc : OpsState × Nat) (appt : Appointment) :
    rrCovered (rrStep now acc appt).1 appt := by
  cases hp : findPatientById acc.1 appt.patientId with
  | none =>
      have he : rrStep now acc appt = acc := by unfold rrStep; simp [hp]
      rw [he]
      exact Or.inr (Or.inl hp)
  | some p =>
      cases hcons : (p.sms_consent || p.email_consent) with
      | false =>
          have he : rrStep now acc appt = acc := by unfold rrStep; simp [hp, hcons]
          rw [he]
          exact Or.inr (Or.inr ⟨p, hp, hcons⟩)
      | true =>
          cases hk : reviewKeyExists acc.1 (rrKey appt) with
          | true =>
              have he : rrStep now acc appt = acc := by
                unfold rrStep; simp [hp, hcons, hk]
              rw [he]
              exact Or.inl (reviewKey_mem_of_exists_true hk)
          | false =>
              have he : rrStep now acc appt =
                  ({ acc.1 with reviewRequests :=
                      acc.1.reviewRequests ++ [rrReq now p appt] },
                    acc.2 + 1) := by
                unfold rrStep; simp [hp, hcons, hk]
              rw [he]
              left
              simp [reviewKeys, rrReq]

theorem rrStep_mono (now : Int) (acc : OpsState × Nat) (a : Appointment)
    {appt : Appointment} (h : rrCovered acc.1 appt) :
    rrCovered (rrStep now acc a).1 appt := by
  rcases h with hkey | hnp | ⟨p, hp, hcons⟩
  · exact Or.inl (rrStep_keys_subset now acc a hkey)
  · right; left
    rw [findPatientById] at hnp ⊢
    rw [(rrStep_frame now acc a).2.1]
    exact hnp
  · right; right
    refine ⟨p, ?_, hcons⟩
    rw [findPatientById] at hp ⊢
    rw [(rrStep_frame now acc a).2.1]
    exact hp

theorem reviewScan_congr {st1 st2 : OpsState} (now : Int)
    (h1 : st1.appointments = st2.appointments)
    (h2 : st1.clinics = st2.clinics) :
    reviewScan st1 now = reviewScan st2 now := by
  unfold reviewScan clinicActive
  rw [h1, h2]

/-- Re-running the review-request generator over the same window changes
nothing and creates zero requests. -/
theorem rr_rerun (st : OpsState) (now : Int) :
    generate_review_request_tasks
        (generate_review_request_tasks st now).1 now
      = ((generate_review_request_tasks st now).1, 0) := by
  have hframe : (generate_review_request_tasks st now).1.appointments
        = st.appointments ∧
      (generate_review_request_tasks st now).1.clinics = st.clinics ∧
      (generate_review_request_tasks st now).1.patients = st.patients := by
    unfold generate_review_request_tasks
    exact foldl_preserves
      (fun s => s.1.appointments = st.appointments ∧
        s.1.clinics = st.clinics ∧ s.1.patients = st.patients)
      (rrStep now)
      (fun s a hs =>
        ⟨((rrStep_frame now s a).2.2.1).trans hs.1,
          ((rrStep_frame now s a).1).trans hs.2.1,
          ((rrStep_frame now s a).2.1).trans hs.2.2⟩)
      (reviewScan st now) (st, 0) ⟨rfl, rfl, rfl⟩
  have hcov : ∀ a ∈ reviewScan st now,
      rrCovered (generate_review_request_tasks st now).1 a := by
    intro a ha
    unfold generate_review_request_tasks
    exact foldl_establishes (fun s b => rrCovered s.1 b) (rrStep now)
      (fun s c b hb => rrStep_mono now s c hb)
      (fun s c => rrStep_self now s c)
      (reviewScan st now) (st, 0) a ha
  have hscan : reviewScan (generate_review_request_tasks st now).1 now
      = reviewScan st now :=
    reviewScan_congr now hframe.1 hframe.2.1
  unfold generate_review_request_tasks at hscan hcov ⊢
  rw [hscan]
  exact foldl_fix (fun s a => rrCovered s.1 a) (rrStep now)
    (fun s a hs => rrStep_skip now s a hs)
    (reviewScan st now) _ hcov

/-- One run of the review-request generator keeps all request keys distinct. -/
theorem rr_nodup (st : OpsState) (now : Int)
    (h : (reviewKeys st).Nodup) :
    (reviewKeys (generate_review_request_tasks st now).1).Nodup := by
  unfold generate_review_request_tasks
  exact foldl_preserves (fun s => (reviewKeys s.1).Nodup) (rrStep now)
    (fun s a hs => step_keys_nodup (fun x => reviewKeys x.1) (rrStep now)
      (fun x a2 => rrStep_keys_shape now x a2) s a hs)
    (reviewScan st now) (st, 0) h

/-! ### Lemmas about the treatment follow-up generator -/

theorem tfStep_cases (acc : OpsState × Nat) (plan : TreatmentPlan) :
    tfStep acc plan = acc ∨
    (taskKeyExists acc.1 (tfKey plan) = false ∧
      tfStep acc plan =
        ({ acc.1 with tasks := acc.1.tasks ++ [tfTask plan] }, acc.2 + 1)) := by
  cases h : taskKeyExists acc.1 (tfKey plan) with
  | true => left; unfold tfStep; simp [h]
  | false => right; exact ⟨rfl, by unfold tfStep; simp [h]⟩

theorem tfStep_frame (acc : OpsState × Nat) (plan : TreatmentPlan) :
    (tfStep acc plan).1.clinics = acc.1.clinics ∧
    (tfStep acc plan).1.patients = acc.1.patients ∧
    (tfStep acc plan).1.appointments = acc.1.appointments ∧
    (tfStep acc plan).1.callEvents = acc.1.callEvents ∧
    (tfStep acc plan).1.treatmentPlans = acc.1.treatmentPlans ∧
    (tfStep acc plan).1.reviewRequests = acc.1.reviewRequests := by
  rcases tfStep_cases acc plan with h | ⟨_, h⟩ <;>
    rw [h] <;> exact ⟨rfl, rfl, rfl, rfl, rfl, rfl⟩

theorem tfStep_keys_shape (acc : OpsState × Nat) (plan : TreatmentPlan) :
    taskKeys (tfStep acc plan).1 = taskKeys acc.1 ∨
    ∃ k, k ∉ taskKeys acc.1 ∧
      taskKeys (tfStep acc plan).1 = taskKeys acc.1 ++ [k] := by
  rcases tfStep_cases acc plan with h | ⟨h1, h⟩
  · left; rw [h]
  · right
    refine ⟨tfKey plan, taskKey_not_mem_of_exists_false h1, ?_⟩
    rw [h]
    simp [taskKeys, tfTask]

theorem tfStep_skip (acc : OpsState × Nat) (plan : TreatmentPlan)
    (h : tfKey plan ∈ taskKeys acc.1) : tfStep acc plan = acc := by
  unfold tfStep
  simp [taskKeyExists_true_of_mem h]

theorem tfStep_self (acc : OpsState × Nat) (plan : TreatmentPlan) :
    tfKey plan ∈ taskKeys (tfStep acc plan).1 := by
  rcases tfStep_cases acc plan with h | ⟨h1, h⟩
  · cases hk : taskKeyExists acc.1 (tfKey plan) with
    | true => rw [h]; exact taskKey_mem_of_exists_true hk
    | false =>
        exfalso
        have h2 : tfStep acc plan =
            ({ acc.1 with tasks := acc.1.tasks ++ [tfTask plan] }, acc.2 + 1) := by
          unfold tfStep; simp [hk]
        rw [h] at h2
        have : acc.2 = acc.2 + 1 := congrArg Prod.snd h2
        omega
  · rw [h]
    simp [taskKeys, tfTask]

theorem tfStep_mono (acc : OpsState × Nat) (a : TreatmentPlan) {k : String}
    (h : k ∈ taskKeys acc.1) : k ∈ taskKeys (tfStep acc a).1 :=
  step_keys_subset (fun s => taskKeys s.1) tfStep
    (fun s b => tfStep_keys_shape s b) acc a h

theorem treatmentScan_congr {st1 st2 : OpsState} (now : Int)
    (h1 : st1.treatmentPlans = st2.treatmentPlans)
    (h2 : st1.clinics = st2.clinics) :
    treatmentScan st1 now = treatmentScan st2 now := by
  unfold treatmentScan clinicActive
  rw [h1, h2]

/-- Re-running the treatment follow-up generator over the same window changes
nothing and creates zero tasks. -/
theorem tf_rerun (st : OpsState) (now : Int) :
    generate_treatment_followup_tasks
        (generate_treatment_followup_tasks st now).1 now
      = ((generate_treatment_followup_tasks st now).1, 0) := by
  have hframe : (generate_treatment_followup_tasks st now).1.treatmentPlans
        = st.treatmentPlans ∧
      (generate_treatment_followup_tasks st now).1.clinics = st.clinics := by
    unfold generate_treatment_followup_tasks
    exact foldl_preserves
      (fun s => s.1.treatmentPlans = st.treatmentPlans ∧
        s.1.clinics = st.clinics)
      tfStep
      (fun s a hs =>
        ⟨((tfStep_frame s a).2.2.2.2.1).trans hs.1,
          ((tfStep_frame s a).1).trans hs.2⟩)
      (treatmentScan st now) (st, 0) ⟨rfl, rfl⟩
  have hcov : ∀ a ∈ treatmentScan st now,
      tfKey a ∈ taskKeys (generate_treatment_followup_tasks st now).1 := by
    intro a ha
    unfold generate_treatment_followup_tasks
    exact foldl_establishes (fun s b => tfKey b ∈ taskKeys s.1) tfStep
      (fun s c b hb => tfStep_mono s c hb)
      (fun s c => tfStep_self s c)
      (treatmentScan st now) (st, 0) a ha
  have hscan : treatmentScan (generate_treatment_followup_tasks st now).1 now
      = treatmentScan st now :=
    treatmentScan_congr now hframe.1 hframe.2
  unfold generate_treatment_followup_tasks at hscan hcov ⊢
  rw [hscan]
  exact foldl_fix (fun s a => tfKey a ∈ taskKeys s.1) tfStep
    (fun s a hs => tfStep_skip s a hs)
    (treatmentScan st now) _ hcov

/-- One run of the treatment follow-up generator keeps all task keys
distinct. -/
theorem tf_nodup (st : OpsState) (now : Int)
    (h : (taskKeys st).Nodup) :
    (taskKeys (generate_treatment_followup_tasks st now).1).Nodup := by
  unfold generate_treatment_followup_tasks
  exact foldl_preserves (fun s => (taskKeys s.1).Nodup) tfStep
    (fun s a hs => step_keys_nodup (fun x => taskKeys x.1) tfStep
      (fun x a2 => tfStep_keys_shape x a2) s a hs)
    (treatmentScan st now) (st, 0) h

/-! ### Lemmas about the recall generator -/

theorem rcStep_cases (now : Int) (acc : OpsState × Nat) (patient : Patient) :
    rcStep now acc patient = acc ∨
    (taskKeyExists acc.1 (rcKey now patient) = false ∧
      rcStep now acc patient =
        ({ acc.1 with tasks := acc.1.tasks ++ [rcTask now patient] },
          acc.2 + 1)) := by
  cases h : taskKeyExists acc.1 (rcKey now patient) with
  | true => left; unfold rcStep; simp [h]
  | false => right; exact ⟨rfl, by unfold rcStep; simp [h]⟩

theorem rcStep_frame (now : Int) (acc : OpsState × Nat) (patient : Patient) :
    (rcStep now acc patient).1.clinics = acc.1.clinics ∧
    (rcStep now acc patient).1.patients = acc.1.patients := by
  rcases rcStep_cases now acc patient with h | ⟨_, h⟩ <;>
    rw [h] <;> exact ⟨rfl, rfl⟩

theorem rcStep_keys_shape (now : Int) (acc : OpsState × Nat)
    (patient : Patient) :
    taskKeys (rcStep now acc patient).1 = taskKeys acc.1 ∨
    ∃ k, k ∉ taskKeys acc.1 ∧
      taskKeys (rcStep now acc patient).1 = taskKeys acc.1 ++ [k] := by
  rcases rcStep_cases now acc patient with h | ⟨h1, h⟩
  · left; rw [h]
  · right
    refine ⟨rcKey now patient, taskKey_not_mem_of_exists_false h1, ?_⟩
    rw [h]
    simp [taskKeys, rcTask]

theorem rcStep_skip (now : Int) (acc : OpsState × Nat) (patient : Patient)
    (h : rcKey now patient ∈ taskKeys acc.1) : rcStep now acc patient = acc := by
  unfold rcStep
  simp [taskKeyExists_true_of_mem h]

theorem rcStep_self (now : Int) (acc : OpsState × Nat) (patient : Patient) :
    rcKey now patient ∈ taskKeys (rcStep now acc patient).1 := by
  cases hk : taskKeyExists acc.1 (rcKey now patient) with
  | true =>
      have h : rcStep now acc patient = acc := by unfold rcStep; simp [hk]
      rw [h]
      exact taskKey_mem_of_exists_true hk
  | false =>
      have h : rcStep now acc patient =
          ({ acc.1 with tasks := acc.1.tasks ++ [rcTask now patient] },
            acc.2 + 1) := by
        unfold rcStep; simp [hk]
      rw [h]
      simp [taskKeys, rcTask]

theorem rcStep_mono (now : Int) (acc : OpsState × Nat) (a : Patient)
    {k : String} (h : k ∈ taskKeys acc.1) : k ∈ taskKeys (rcStep now acc a).1 :=
  step_keys_subset (fun s => taskKeys s.1) (rcStep now)
    (fun s b => rcStep_keys_shape now s b) acc a h

theorem recallScan_congr {st1 st2 : OpsState} (now : Int)
    (h1 : st1.patients = st2.patients)
    (h2 : st1.clinics = st2.clinics) :
    recallScan st1 now = recallScan st2 now := by
  unfold recallScan clinicActive
  rw [h1, h2]

/-- Re-running the recall generator at the same time changes nothing and
creates zero tasks. -/
theorem rc_rerun (st : OpsState) (now : Int) :
    generate_recall_tasks (generate_recall_tasks st now).1 now
      = ((generate_recall_tasks st now).1, 0) := by
  have hframe : (generate_recall_tasks st now).1.patients = st.patients ∧
      (generate_recall_tasks st now).1.clinics = st.clinics := by
    unfold generate_recall_tasks
    exact foldl_preserves
      (fun s => s.1.patients = st.patients ∧ s.1.clinics = st.clinics)
      (rcStep now)
      (fun s a hs =>
        ⟨((rcStep_frame now s a).2).trans hs.1,
          ((rcStep_frame now s a).1).trans hs.2⟩)
      (recallScan st now) (st, 0) ⟨rfl, rfl⟩
  have hcov : ∀ a ∈ recallScan st now,
      rcKey now a ∈ taskKeys (generate_recall_tasks st now).1 := by
    intro a ha
    unfold generate_recall_tasks
    exact foldl_establishes (fun s b => rcKey now b ∈ taskKeys s.1) (rcStep now)
      (fun s c b hb => rcStep_mono now s c hb)
      (fun s c => rcStep_self now s c)
      (recallScan st now) (st, 0) a ha
  have hscan : recallScan (generate_recall_tasks st now).1 now
      = recallScan st now :=
    recallScan_congr now hframe.1 hframe.2
  unfold generate_recall_tasks at hscan hcov ⊢
  rw [hscan]
  exact foldl_fix (fun s a => rcKey now a ∈ taskKeys s.1) (rcStep now)
    (fun s a hs => rcStep_skip now s a hs)
    (recallScan st now) _ hcov

/-- One run of the recall generator keeps all task keys distinct. -/
theorem rc_nodup (st : OpsState) (now : Int)
    (h : (taskKeys st).Nodup) :
    (taskKeys (generate_recall_tasks st now).1).Nodup := by
  unfold generate_recall_tasks
  exact foldl_preserves (fun s => (taskKeys s.1).Nodup) (rcStep now)
    (fun s a hs => step_keys_nodup (fun x => taskKeys x.1) (rcStep now)
      (fun x a2 => rcStep_keys_shape now x a2) s a hs)
    (recallScan st now) (st, 0) h

/-! ### Helper lemmas about the attribution ranker -/

theorem pyOr_empty_right (x : String) : pyOr x "" = x := by
  unfold pyOr
  by_cases h : x = "" <;> simp [h]

/-- The reason string is absent exactly on the unknown branch. -/
theorem rank_reason_none_iff (calls : List CallEvent)
    (touches : List MarketingTouch) :
    (rankCandidates calls touches).attribution_reason = none ↔
    (rankCandidates calls touches).attribution_type = "unknown" := by
  unfold rankCandidates
  cases h1 : calls.find? (fun c => decide (c.campaign_id ≠ "")) with
  | some c => simp
  | none =>
      cases h2 : touches.find? isPaidMedium with
      | some t => simp
      | none =>
          cases calls with
          | cons c cs => simp
          | nil =>
              cases touches with
              | cons t ts => simp
              | nil => simp

/-! ### The claims -/

/-- C2: whenever candidate set A contains a call with a non-empty
campaign_id, create_attribution yields attribution_type "call" with
campaign_source "phone" and campaign_medium "call", whatever marketing
touches are present. -/
theorem claim_C2 (existing : Option Attribution) (patient : Patient)
    (invoice : Invoice) (allCalls : List CallEvent)
    (allTouches : List MarketingTouch) (now : Int)
    (h : ∃ c ∈ callCandidates patient invoice allCalls, c.campaign_id ≠ "") :
    (create_attribution existing patient invoice allCalls allTouches
      now).attribution_type = "call" ∧
    (create_attribution existing patient invoice allCalls allTouches
      now).campaign_source = "phone" ∧
    (create_attribution existing patient invoice allCalls allTouches
      now).campaign_medium = "call" := by
  obtain ⟨c, hc, hcid⟩ := h
  have hne : (callCandidates patient invoice allCalls).find?
      (fun c => decide (c.campaign_id ≠ "")) ≠ none := by
    intro hn
    rw [List.find?_eq_none] at hn
    exact hn c hc (by simpa using hcid)
  obtain ⟨c0, hc0⟩ := Option.ne_none_iff_exists.mp hne
  have hr : rankCandidates (callCandidates patient invoice allCalls)
      (touchCandidates patient invoice allTouches) =
      ⟨"call", some (SourceRef.call c0.id), pyOr c0.campaign_name "",
        "phone", "call", some "Matched paid campaign call"⟩ := by
    unfold rankCandidates
    rw [← hc0]
  refine ⟨?_, ?_, ?_⟩
  · show (rankCandidates (callCandidates patient invoice allCalls)
      (touchCandidates patient invoice allTouches)).attribution_type = "call"
    rw [hr]
  · show (rankCandidates (callCandidates patient invoice allCalls)
      (touchCandidates patient invoice allTouches)).campaign_source = "phone"
    rw [hr]
  · show (rankCandidates (callCandidates patient invoice allCalls)
      (touchCandidates patient invoice allTouches)).campaign_medium = "call"
    rw [hr]

/-- Witness for C2: a paid campaign call inside the window wins even with an
organic touch present. -/
theorem claim_C2_witness :
    (∃ c ∈ callCandidates wPatient wInvoice [wPaidCall], c.campaign_id ≠ "") ∧
    ((create_attribution none wPatient wInvoice [wPaidCall] [wOrganicTouch]
        1700000100).attribution_type = "call" ∧
      (create_attribution none wPatient wInvoice [wPaidCall] [wOrganicTouch]
        1700000100).campaign_source = "phone" ∧
      (create_attribution none wPatient wInvoice [wPaidCall] [wOrganicTouch]
        1700000100).campaign_medium = "call") :=
  ⟨by decide, claim_C2 none wPatient wInvoice [wPaidCall] [wOrganicTouch]
    1700000100 (by decide)⟩

/-- C3: when no candidate call carries a campaign id and the first candidate
touch with a paid utm_medium (cpc, ppc or paid) is t, create_attribution
yields attribution_type "marketing_touch" with the touch's UTM source and
medium — organic calls present in the window notwithstanding. -/
theorem claim_C3 (existing : Option Attribution) (patient : Patient)
    (invoice : Invoice) (allCalls : List CallEvent)
    (allTouches : List MarketingTouch) (now : Int) (t : MarketingTouch)
    (h1 : ∀ c ∈ callCandidates patient invoice allCalls, c.campaign_id = "")
    (h2 : (touchCandidates patient invoice allTouches).find? isPaidMedium
      = some t) :
    (create_attribution existing patient invoice allCalls allTouches
      now).attribution_type = "marketing_touch" ∧
    (create_attribution existing patient invoice allCalls allTouches
      now).campaign_source = t.utm_source ∧
    (create_attribution existing patient invoice allCalls allTouches
      now).campaign_medium = t.utm_medium := by
  have hn : (callCandidates patient invoice allCalls).find?
      (fun c => decide (c.campaign_id ≠ "")) = none :=
    List.find?_eq_none.mpr (fun c hc => by simp [h1 c hc])
  have hr : rankCandidates (callCandidates patient invoice allCalls)
      (touchCandidates patient invoice allTouches) =
      ⟨"marketing_touch", some (SourceRef.touch t.id), pyOr t.utm_campaign "",
        pyOr t.utm_source "", pyOr t.utm_medium "",
        some "Matched paid marketing touch"⟩ := by
    unfold rankCandidates
    rw [hn, h2]
  refine ⟨?_, ?_, ?_⟩
  · show (rankCandidates (callCandidates patient invoice allCalls)
      (touchCandidates patient invoice allTouches)).attribution_type
      = "marketing_touch"
    rw [hr]
  · show (rankCandidates (callCandidates patient invoice allCalls)
      (touchCandidates patient invoice allTouches)).campaign_source
      = t.utm_source
    rw [hr]
    exact pyOr_empty_right _
  · show (rankCandidates (callCandidates patient invoice allCalls)
      (touchCandidates patient invoice allTouches)).campaign_medium
      = t.utm_medium
    rw [hr]
    exact pyOr_empty_right _

/-- Witness for C3: a cpc touch beats an organic call in the same window. -/
theorem claim_C3_witness :
    (∀ c ∈ callCandidates wPatient wInvoice [wOrganicCall],
      c.campaign_id = "") ∧
    ((touchCandidates wPatient wInvoice [wPaidTouch, wOrganicTouch]).find?
      isPaidMedium = some wPaidTouch) ∧
    ((create_attribution none wPatient wInvoice [wOrganicCall]
        [wPaidTouch, wOrganicTouch] 1700000100).attribution_type
        = "marketing_touch" ∧
      (create_attribution none wPatient wInvoice [wOrganicCall]
        [wPaidTouch, wOrganicTouch] 1700000100).campaign_source
        = wPaidTouch.utm_source ∧
      (create_attribution none wPatient wInvoice [wOrganicCall]
        [wPaidTouch, wOrganicTouch] 1700000100).campaign_medium
        = wPaidTouch.utm_medium) :=
  ⟨by decide, by decide,
    claim_C3 none wPatient wInvoice [wOrganicCall] [wPaidTouch, wOrganicTouch]
      1700000100 wPaidTouch (by decide) (by decide)⟩

/-- C5: evaluating attribution twice with identical inputs keeps a single
Attribution row for the patient and reproduces its content exactly, except
for the evaluation timestamp inside the evidence object. -/
theorem claim_C5 (patient : Patient) (invoice : Invoice)
    (allCalls : List CallEvent) (allTouches : List MarketingTouch)
    (t1 t2 : Int) :
    (evaluateAttribution [] patient invoice allCalls allTouches t1).1
      = [(evaluateAttribution [] patient invoice allCalls allTouches t1).2] ∧
    (evaluateAttribution
        (evaluateAttribution [] patient invoice allCalls allTouches t1).1
        patient invoice allCalls allTouches t2).1
      = [(evaluateAttribution
          (evaluateAttribution [] patient invoice allCalls allTouches t1).1
          patient invoice allCalls allTouches t2).2] ∧
    (evaluateAttribution
        (evaluateAttribution [] patient invoice allCalls allTouches t1).1
        patient invoice allCalls allTouches t2).2
      = { (evaluateAttribution [] patient invoice allCalls allTouches t1).2
          with evidence :=
            { (evaluateAttribution [] patient invoice allCalls
                allTouches t1).2.evidence with evaluated_at := t2 } } := by
  have h1 : evaluateAttribution [] patient invoice allCalls allTouches t1
      = ([create_attribution none patient invoice allCalls allTouches t1],
        create_attribution none patient invoice allCalls allTouches t1) := rfl
  have hpid : (create_attribution none patient invoice allCalls allTouches
      t1).patientId = patient.id := rfl
  have hfind : List.find? (fun a => a.patientId == patient.id)
      [create_attribution none patient invoice allCalls allTouches t1]
      = some (create_attribution none patient invoice allCalls allTouches t1) := by
    rw [List.find?_cons_of_pos]
    rw [hpid]
    exact beq_self_eq_true patient.id
  refine ⟨rfl, ?_, ?_⟩
  · rw [h1]
    show (evaluateAttribution
      [create_attribution none patient invoice allCalls allTouches t1]
      patient invoice allCalls allTouches t2).1 = _
    unfold evaluateAttribution
    rw [hfind]
    simp only [List.map_cons, List.map_nil, hpid, beq_self_eq_true, if_pos]
  · rw [h1]
    show (evaluateAttribution
      [create_attribution none patient invoice allCalls allTouches t1]
      patient invoice allCalls allTouches t2).2 = _
    unfold evaluateAttribution
    rw [hfind]
    rfl

/-- C4 counterexample: two successive overrides.  The first replaces the
source (call 5, campaign "Summer Sale") and the second override's evidence
records only the intermediate decision (call 6, campaign "Other Campaign");
the pre-first-override decision is gone from the evidence object, refuting
the claim that no prior decision is ever erased. -/
theorem claim_C4_counterexample :
    (override_attribution
        (override_attribution attrA 10 (some nsB) "wrong source" 1700001000)
        11 (some nsC) "still wrong" 1700002000).evidence
      = { evA with
          previous_attribution :=
            some ({ attrType := "call", source := some (SourceRef.call 6),
                    campaign := "Other Campaign" } : PrevAttribution) } ∧
    attrA.attribution_type = "call" ∧
    attrA.source = some (SourceRef.call 5) ∧
    attrA.campaign_name = "Summer Sale" ∧
    (some (SourceRef.call 6) : Option SourceRef) ≠ some (SourceRef.call 5) ∧
    "Other Campaign" ≠ "Summer Sale" := by
  refine ⟨rfl, rfl, rfl, rfl, by decide, by decide⟩

/-- C4 (amended): each override records the immediately preceding decision
(type, source, campaign) under the single previous_attribution slot of the
evidence object and preserves every other evidence field, and marks the row
manual; but the slot is overwritten by the next override, so only the latest
prior decision is retained. -/
theorem claim_C4 (a : Attribution) (userId : Nat) (ns : Option NewSource)
    (reason : String) (now : Int) :
    (override_attribution a userId ns reason now).evidence
      = { a.evidence with
          previous_attribution :=
            some ({ attrType := a.attribution_type, source := a.source,
                    campaign := a.campaign_name } : PrevAttribution) } ∧
    (override_attribution a userId ns reason now).status = "manual" ∧
    (override_attribution a userId ns reason now).overridden_by = some userId ∧
    (override_attribution a userId ns reason now).override_reason = reason ∧
    (override_attribution a userId ns reason now).overridden_at = some now :=
  ⟨rfl, rfl, rfl, rfl, rfl⟩

/-- C6: saving an AuditLog instance that already has a primary key raises,
and deleting an AuditLog always raises; the stored rows are untouched. -/
theorem claim_C6 (row : AuditLog) (db : List AuditLog) :
    (row.pk.isSome = true →
      AuditLog.save row db
        = Except.error "AuditLog entries cannot be modified") ∧
    AuditLog.delete row db
      = Except.error "AuditLog entries cannot be deleted" := by
  constructor
  · intro h
    unfold AuditLog.save
    cases hp : row.pk with
    | none => rw [hp] at h; simp at h
    | some k => rfl
  · rfl

/-- Witness for C6 at a concrete persisted row. -/
theorem claim_C6_witness :
    wLog.pk.isSome = true ∧
    AuditLog.save wLog [] = Except.error "AuditLog entries cannot be modified" ∧
    AuditLog.delete wLog [] = Except.error "AuditLog entries cannot be deleted" :=
  ⟨rfl, (claim_C6 wLog []).1 rfl, (claim_C6 wLog []).2⟩

/-- C9 counterexample: a patient with no phone and no email falls to the
unknown branch; the persisted evidence then contains neither the
call-candidate count nor a reason string, refuting "in every case". -/
theorem claim_C9_counterexample :
    (create_attribution none pNoContact invNC [] [] 1700000100).attribution_type
      = "unknown" ∧
    (create_attribution none pNoContact invNC [] []
      1700000100).evidence.call_events_found = none ∧
    (create_attribution none pNoContact invNC [] []
      1700000100).evidence.attribution_reason = none ∧
    (create_attribution none pNoContact invNC [] []
      1700000100).evidence.marketing_touches_found = 0 :=
  ⟨rfl, rfl, rfl, rfl⟩

/-- C9 (amended): the evidence always records invoice id, amount, paid
timestamp, lookback boundary, evaluation timestamp and the candidate count
of set B; the count of set A is recorded exactly when the patient has a
phone, and the reason string exactly when some precedence rule fired (it is
absent on the unknown branch). -/
theorem claim_C9 (existing : Option Attribution) (patient : Patient)
    (invoice : Invoice) (allCalls : List CallEvent)
    (allTouches : List MarketingTouch) (now : Int) :
    (create_attribution existing patient invoice allCalls allTouches
      now).evidence.invoice_id = invoice.id ∧
    (create_attribution existing patient invoice allCalls allTouches
      now).evidence.invoice_amount = toString invoice.total_amount ∧
    (create_attribution existing patient invoice allCalls allTouches
      now).evidence.paid_at = invoice.paid_at ∧
    (create_attribution existing patient invoice allCalls allTouches
      now).evidence.lookback_start = invoice.paid_at - 30 * 86400 ∧
    (create_attribution existing patient invoice allCalls allTouches
      now).evidence.evaluated_at = now ∧
    (create_attribution existing patient invoice allCalls allTouches
      now).evidence.marketing_touches_found
      = (touchCandidates patient invoice allTouches).length ∧
    (create_attribution existing patient invoice allCalls allTouches
      now).evidence.call_events_found
      = (if patient.phone = "" then none
         else some (callCandidates patient invoice allCalls).length) ∧
    (create_attribution existing patient invoice allCalls allTouches
      now).evidence.attribution_reason
      = (rankCandidates (callCandidates patient invoice allCalls)
          (touchCandidates patient invoice allTouches)).attribution_reason ∧
    ((create_attribution existing patient invoice allCalls allTouches
        now).evidence.attribution_reason = none ↔
      (create_attribution existing patient invoice allCalls allTouches
        now).attribution_type = "unknown") := by
  refine ⟨rfl, rfl, rfl, rfl, rfl, rfl, rfl, rfl, ?_⟩
  exact rank_reason_none_iff (callCandidates patient invoice allCalls)
    (touchCandidates patient invoice allTouches)

/-- C10: re-evaluating attribution after a manual override recomputes the
decision and the whole evidence object (dropping previous_attribution),
while status, overridden_by, override_reason and overridden_at keep their
override-time values. -/
theorem claim_C10 (a0 : Attribution) (userId : Nat) (ns : Option NewSource)
    (reason : String) (tOv : Int) (patient : Patient) (invoice : Invoice)
    (allCalls : List CallEvent) (allTouches : List MarketingTouch)
    (now : Int) :
    create_attribution
        (some (override_attribution a0 userId ns reason tOv))
        patient invoice allCalls allTouches now
      = { create_attribution none patient invoice allCalls allTouches now with
          status := "manual"
          overridden_by := some userId
          override_reason := reason
          overridden_at := some tOv } ∧
    (create_attribution
        (some (override_attribution a0 userId ns reason tOv))
        patient invoice allCalls allTouches now).evidence.previous_attribution
      = none :=
  ⟨rfl, rfl⟩

/-- Every request a review-request run appends comes from a scanned,
completed, consented appointment, with the channel rule applied. -/
theorem rr_loop_creates (st : OpsState) (now : Int) :
    ∀ (l : List Appointment) (acc : OpsState × Nat),
      acc.1.patients = st.patients →
      (∀ a ∈ l, a ∈ reviewScan st now) →
      ∃ created,
        (l.foldl (rrStep now) acc).1.reviewRequests
          = acc.1.reviewRequests ++ created ∧
        ∀ r ∈ created, ∃ appt p,
          appt ∈ reviewScan st now ∧
          findPatientById st appt.patientId = some p ∧
          (p.sms_consent || p.email_consent) = true ∧
          r = rrReq now p appt := by
  intro l
  induction l with
  | nil =>
      intro acc hpat hl
      exact ⟨[], (List.append_nil _).symm, fun r hr => absurd hr
        (List.not_mem_nil r)⟩
  | cons a t ih =>
      intro acc hpat hl
      rw [List.foldl_cons]
      have hpat2 : (rrStep now acc a).1.patients = st.patients :=
        ((rrStep_frame now acc a).2.1).trans hpat
      have hl2 : ∀ b ∈ t, b ∈ reviewScan st now :=
        fun b hb => hl b (List.mem_cons_of_mem a hb)
      obtain ⟨created, hc1, hc2⟩ := ih (rrStep now acc a) hpat2 hl2
      rcases rrStep_cases now acc a with h | ⟨p, hp, hcons, hk, h⟩
      · rw [h] at hc1
        rw [h]
        exact ⟨created, hc1, hc2⟩
      · rw [h] at hc1
        refine ⟨rrReq now p a :: created, ?_, ?_⟩
        · rw [h, hc1]
          simp
        · intro r hr
          rcases List.mem_cons.mp hr with h1 | h1
          · subst h1
            refine ⟨a, p, hl a (List.mem_cons_self a t), ?_, hcons, rfl⟩
            rw [findPatientById] at hp ⊢
            rw [← hpat]
            exact hp
          · exact hc2 r h1

/-- C8: a review-request run only appends requests, and every appended
request belongs to a scanned appointment (completed, active clinic, in the
one-hour window around 24 hours before the run) whose patient consented to
sms or email; the channel is sms exactly when the patient has sms consent,
else email.  In particular no request is ever created for a patient with
neither consent. -/
theorem claim_C8 (st : OpsState) (now : Int) :
    ∃ created,
      (generate_review_request_tasks st now).1.reviewRequests
        = st.reviewRequests ++ created ∧
      ∀ r ∈ created, ∃ appt p,
        appt ∈ reviewScan st now ∧
        findPatientById st appt.patientId = some p ∧
        (p.sms_consent || p.email_consent) = true ∧
        r.channel = (if p.sms_consent then "sms" else "email") ∧
        r.idempotency_key = rrKey appt ∧
        r = rrReq now p appt := by
  obtain ⟨created, hc1, hc2⟩ :=
    rr_loop_creates st now (reviewScan st now) (st, 0) rfl (fun a ha => ha)
  refine ⟨created, hc1, ?_⟩
  intro r hr
  obtain ⟨appt, p, h1, h2, h3, h4⟩ := hc2 r hr
  exact ⟨appt, p, h1, h2, h3, by rw [h4]; rfl, by rw [h4]; rfl, h4⟩

/-- C7 scenario: a 15-second unanswered, unprocessed call within the last 24
hours whose caller phone matches a patient of an active clinic.  One run
creates exactly one callback task (priority 2, key callback_call_CA123) and
marks the call processed; a second run changes nothing and creates zero. -/
theorem claim_C7 :
    (generate_missed_call_tasks stC7 1700000000).2 = 1 ∧
    (generate_missed_call_tasks stC7 1700000000).1.tasks.map
        (fun t => (t.task_type, t.priority, t.idempotency_key))
      = [("callback", 2, "callback_call_CA123")] ∧
    (generate_missed_call_tasks stC7 1700000000).1.callEvents.map
        (fun c => c.is_processed) = [true] ∧
    (generate_missed_call_tasks
        (generate_missed_call_tasks stC7 1700000000).1 1700000000).2 = 0 ∧
    (generate_missed_call_tasks
        (generate_missed_call_tasks stC7 1700000000).1 1700000000).1.tasks
      = (generate_missed_call_tasks stC7 1700000000).1.tasks := by
  refine ⟨rfl, rfl, rfl, rfl, rfl⟩

/-- C1: for each of the four generators, a second run over the same window
(on the store left by the first run) is a no-op creating zero action
records; and any two runs, over arbitrary (overlapping) windows, keep all
idempotency keys distinct, so no two action records for the same trigger
ever exist. -/
theorem claim_C1 (st : OpsState) (now now1 now2 : Int) :
    (generate_missed_call_tasks (generate_missed_call_tasks st now).1 now
        = ((generate_missed_call_tasks st now).1, 0) ∧
      generate_review_request_tasks
          (generate_review_request_tasks st now).1 now
        = ((generate_review_request_tasks st now).1, 0) ∧
      generate_treatment_followup_tasks
          (generate_treatment_followup_tasks st now).1 now
        = ((generate_treatment_followup_tasks st now).1, 0) ∧
      generate_recall_tasks (generate_recall_tasks st now).1 now
        = ((generate_recall_tasks st now).1, 0)) ∧
    ((taskKeys st).Nodup →
      (taskKeys (generate_missed_call_tasks
        (generate_missed_call_tasks st now1).1 now2).1).Nodup) ∧
    ((reviewKeys st).Nodup →
      (reviewKeys (generate_review_request_tasks
        (generate_review_request_tasks st now1).1 now2).1).Nodup) ∧
    ((taskKeys st).Nodup →
      (taskKeys (generate_treatment_followup_tasks
        (generate_treatment_followup_tasks st now1).1 now2).1).Nodup) ∧
    ((taskKeys st).Nodup →
      (taskKeys (generate_recall_tasks
        (generate_recall_tasks st now1).1 now2).1).Nodup) :=
  ⟨⟨cb_rerun st now, rr_rerun st now, tf_rerun st now, rc_rerun st now⟩,
    fun h => cb_nodup _ now2 (cb_nodup st now1 h),
    fun h => rr_nodup _ now2 (rr_nodup st now1 h),
    fun h => tf_nodup _ now2 (tf_nodup st now1 h),
    fun h => rc_nodup _ now2 (rc_nodup st now1 h)⟩

/-- Witness for C1 at a concrete store with one pending missed call. -/
theorem claim_C1_witness :
    (taskKeys stC7).Nodup ∧ (reviewKeys stC7).Nodup ∧
    generate_missed_call_tasks
        (generate_missed_call_tasks stC7 1700000000).1 1700000000
      = ((generate_missed_call_tasks stC7 1700000000).1, 0) ∧
    (taskKeys (generate_missed_call_tasks
      (generate_missed_call_tasks stC7 1700000000).1 1700003600).1).Nodup ∧
    (reviewKeys (generate_review_request_tasks
      (generate_review_request_tasks stC7 1700000000).1 1700003600).1).Nodup ∧
    (taskKeys (generate_treatment_followup_tasks
      (generate_treatment_followup_tasks stC7 1700000000).1 1700003600).1).Nodup ∧
    (taskKeys (generate_recall_tasks
      (generate_recall_tasks stC7 1700000000).1 1700003600).1).Nodup := by
  have h := claim_C1 stC7 1700000000 1700000000 1700003600
  exact ⟨by decide, by decide, h.1.1, h.2.1 (by decide), h.2.2.1 (by decide),
    h.2.2.2.1 (by decide), h.2.2.2.2 (by decide)⟩

end Pracxcel
